import Mathlib

/-!
Verification development for the CDN module-resolution core
(`src/utils.ts`, `src/fetch-and-cache.ts`, `src/esbuild.ts`,
`src/unnamed/part_000`, and the plugin variant shown in `src/README.md`).

The TypeScript source is shallowly embedded: pure functions become Lean
functions, the process-wide mutable maps and sets (`CACHE`, `RESOLVED_URLs`,
`FAILED_PKGJSON_URLs`, `FAILED_EXT_URLS`, `FileSystem` / `VirtualFS`) become
explicit state threaded through the functions, and the network becomes an
oracle parameter `String -> Except err result`.  JavaScript strings are Lean
`String`; string primitives (`startsWith`, regex anchors, `extname`, URL
pathname extraction) are modelled by structurally recursive functions on
`String.data` so that every definition evaluates by kernel reduction.
-/

/-! ## JavaScript / Node string primitive models -/

/-- Models the JS regex test `/^p/.test s` (and `String.prototype.startsWith`)
for a literal pattern `p`. -/
def startsWithStr (s p : String) : Bool :=
  p.data.isPrefixOf s.data

/-- Models the JS regex test `/p$/.test s` for a literal pattern `p`. -/
def endsWithStr (s p : String) : Bool :=
  p.data.isSuffixOf s.data

/-- Helper for substring containment on character lists. -/
def hasSubList (p : List Char) : List Char → Bool
  | [] => p.isEmpty
  | c :: t => p.isPrefixOf (c :: t) || hasSubList p t

/-- Models an unanchored JS regex test `/p/.test s` (substring containment)
for a literal pattern `p`. -/
def hasSubstr (s p : String) : Bool :=
  hasSubList p.data s.data

/-- Models the JS regex test for a trailing slash, `/\/$/.test s`. -/
def endsSlash (s : String) : Bool :=
  s.data.getLast? == some '/'

/-- JS truthiness of a `string | false | undefined | null` value:
`none` stands for the absent / `false` value and the empty string is falsy. -/
def jsTruthyStr : Option String → Bool
  | none => false
  | some s => s ≠ ""

/-- Models the JS expression `a || b` where `a` is an optional string
(absent or empty strings fall through to `b`). -/
def jsOrStr (a : Option String) (b : String) : String :=
  match a with
  | none => b
  | some s => if s = "" then b else s

/-- Splits a character list on a separator character; models the
segmentation `String.prototype.split` performs for a one-character
separator. -/
def splitOnCharList (sep : Char) : List Char → List (List Char)
  | [] => [[]]
  | c :: t =>
    if c == sep then [] :: splitOnCharList sep t
    else
      match splitOnCharList sep t with
      | [] => [[c]]
      | g :: gs => (c :: g) :: gs

/-- The suffix of a character list starting at its last `'.'`,
the dot included; `none` when the list holds no dot. -/
def lastDotSuffix : List Char → Option (List Char)
  | [] => none
  | c :: t =>
    match lastDotSuffix t with
    | some suf => some suf
    | none => if c == '.' then some (c :: t) else none

/-- Models `extname` from `node:path` for ordinary path or URL strings:
the substring of the final `/`-separated segment starting at its last dot,
or `""` when that segment has no dot or only a leading dot.  (Agrees with
node for every path whose final segment is not `".."`; all paths the
repository probes are ordinary file paths.) -/
def extname (s : String) : String :=
  let base := ((splitOnCharList '/' s.data).getLastD [])
  match base with
  | [] => ""
  | _ :: rest =>
    match lastDotSuffix rest with
    | some suf => String.mk suf
    | none => ""

/-- The suffix of `s` after the first occurrence of `p`, when `p` occurs. -/
def afterSub (p : List Char) : List Char → Option (List Char)
  | [] => if p.isEmpty then some [] else none
  | c :: t =>
    if p.isPrefixOf (c :: t) then some ((c :: t).drop p.length)
    else afterSub p t

/-- Models `new URL(href).pathname` for an absolute `http(s)` URL with no
query or fragment: everything from the first `/` after the `://`-delimited
host, `"/"` when the URL has no path. -/
def urlPathname (href : String) : String :=
  match afterSub "://".data href.data with
  | none => href
  | some rest =>
    match rest.dropWhile (· ≠ '/') with
    | [] => "/"
    | l => String.mk l

/-! ## `src/utils.ts` -/

/-- The default CDN host (`src/utils.ts`). -/
def DEFAULT_CDN_HOST : String := "https://unpkg.com"

/-- `getCDNOrigin` from `src/utils.ts` (lines 125-155): maps a CDN URL
scheme at the head of the import string to its CDN host, falling back to
the supplied default, and normalizes the result to end with `/`. -/
def getCDNOrigin (importStr : String) (cdn : String := DEFAULT_CDN_HOST) : String :=
  let cdn :=
    if startsWithStr importStr "skypack:" then "https://cdn.skypack.dev"
    else if startsWithStr importStr "esm.sh:" || startsWithStr importStr "esm:" then
      "https://cdn.esm.sh"
    else if startsWithStr importStr "unpkg:" then "https://unpkg.com"
    else if startsWithStr importStr "jsdelivr:" || startsWithStr importStr "esm.run:" then
      "https://cdn.jsdelivr.net/npm"
    else if startsWithStr importStr "jsdelivr.gh:" then "https://cdn.jsdelivr.net/gh"
    else if startsWithStr importStr "deno:" then "https://deno.land/x"
    else if startsWithStr importStr "github:" then "https://raw.githubusercontent.com"
    else cdn
  if endsSlash cdn then cdn else cdn ++ "/"

/-- The scheme markers stripped by `getPureImportPath`, in an order in which
at most one can match a given import string (each requires its own `:`). -/
def cdnSchemeMarkers : List String :=
  ["skypack:", "esm.sh:", "esm:", "unpkg:", "jsdelivr.gh:", "jsdelivr:",
   "esm.run:", "deno:", "github:"]

/-- The known CDN host spellings stripped by `getPureImportPath`. -/
def cdnHostMarkers : List String :=
  ["https://cdn.skypack.dev", "http://cdn.skypack.dev",
   "https://cdn.esm.sh", "http://cdn.esm.sh",
   "https://cdn.jsdelivr.net/npm", "http://cdn.jsdelivr.net/npm",
   "https://unpkg.com", "http://unpkg.com",
   "https://cdn.jsdelivr.net/gh", "http://cdn.jsdelivr.net/gh",
   "https://raw.githubusercontent.com", "http://raw.githubusercontent.com",
   "https://deno.land/x", "http://deno.land/x"]

/-- Drops the first matching marker of `ms` from the head of `s`, modelling a
single anchored `String.prototype.replace` with an alternation of markers. -/
def stripFirstMarker (ms : List String) (s : String) : String :=
  match ms.find? (fun p => startsWithStr s p) with
  | some p => String.mk (s.data.drop p.data.length)
  | none => s

/-- `getPureImportPath` from `src/utils.ts` (lines 160-164): removes a CDN
URL scheme, then a known CDN host, then a leading `/`. -/
def getPureImportPath (importStr : String) : String :=
  let s := stripFirstMarker cdnSchemeMarkers importStr
  let s := stripFirstMarker cdnHostMarkers s
  if startsWithStr s "/" then String.mk (s.data.drop 1) else s

/-- Result record of `getCDNUrl` (`src/utils.ts` lines 170-175).  `urlHref`
models `new URL(path, origin).href`: as `origin` always ends in `/` and
`path` has no leading `/`, WHATWG URL resolution is concatenation here. -/
structure CDNUrlResult where
  importStr : String
  path : String
  origin : String
  cdn : String
  urlHref : String
deriving Repr, DecidableEq

/-- `getCDNUrl` from `src/utils.ts`. -/
def getCDNUrl (importStr : String) (cdn : String := DEFAULT_CDN_HOST) : CDNUrlResult :=
  let origin := getCDNOrigin importStr cdn
  let path := getPureImportPath importStr
  { importStr := importStr, path := path, origin := origin, cdn := cdn
    urlHref := origin ++ path }

/-- `RESOLVE_EXTENSIONS` from `src/utils.ts`. -/
def RESOLVE_EXTENSIONS : List String := [".tsx", ".ts", ".jsx", ".js", ".css", ".json"]

/-- Models `ext.replace(/^\.js/, ".ts")`. -/
def replaceJsWithTs (ext : String) : String :=
  if startsWithStr ext ".js" then ".ts" ++ String.mk (ext.data.drop 3) else ext

/-- Models `String.prototype.slice(1)` for our short extension strings. -/
def sliceOne (s : String) : String := String.mk (s.data.drop 1)

/-- `inferLoader` from `src/utils.ts` (lines 27-43): maps a path to the
esbuild loader name via the extension returned by `extname`. -/
def inferLoader (urlStr : String) : String :=
  let ext := extname urlStr
  if RESOLVE_EXTENSIONS.contains ext then
    sliceOne (if endsWithStr ext ".js" || endsWithStr ext ".jsx" then replaceJsWithTs ext else ext)
  else if ext = ".mjs" || ext = ".cjs" then "ts"
  else if ext = ".mts" || ext = ".cts" then "ts"
  else if ext = ".scss" then "css"
  else if ext = ".png" || ext = ".jpeg" || ext = ".ttf" then "dataurl"
  else if ext = ".svg" || ext = ".html" || ext = ".txt" then "text"
  else if ext = ".wasm" then "file"
  else if ext.length > 0 then "text" else "ts"

/-! ## `src/fetch-and-cache.ts`: the two-tier fetch cache

The in-memory tier (`CACHE`, used when the platform Cache API is absent) is
modelled as an association list from request key to response; `CACHE.set`
prepends and `CACHE.get` takes the first binding with the key, giving the
usual overwrite-by-key map semantics.  A `Response` is abstracted to a `Nat`
identifier and the network to an oracle `net : String -> Nat`; cloning a
response preserves the identifier.  The optional `fetchOpts.method` is an
`Option String`, `none` when no `fetchOpts` or no `method` was supplied. -/

/-- `requestKey` from `src/fetch-and-cache.ts` (lines 8-10): both branches
reduce to the request URL string. -/
def requestKey (request : String) : String := request

/-- JS truthiness of the optional `fetchOpts?.method` string. -/
def methodTruthy : Option String → Bool
  | none => false
  | some m => m ≠ ""

/-- Models `String.prototype.toUpperCase` for the ASCII method names used
in HTTP. -/
def jsToUpper (s : String) : String := String.mk (s.data.map Char.toUpper)

/-- `newRequest` from `src/fetch-and-cache.ts` (lines 12-27): performs the
network fetch and returns the live response; the early `return` on
`!fetchOpts?.method || (fetchOpts?.method && fetchOpts.method.toUpperCase()
!== "GET")` skips the cache store, so the cloned response reaches
`CACHE.set` only when an explicit method equal (case-insensitively) to
`"GET"` was supplied. -/
def newRequest (net : String → Nat) (cache : List (String × Nat))
    (request : String) (method : Option String) : Nat × List (String × Nat) :=
  let networkResponse := net request
  if !methodTruthy method
      || (methodTruthy method && jsToUpper (method.getD "") ≠ "GET") then
    (networkResponse, cache)
  else
    (networkResponse, (requestKey request, networkResponse) :: cache)

/-- `getRequest` from `src/fetch-and-cache.ts` (lines 35-64), in-memory
tier: look the request key up in `CACHE`; on a miss delegate to
`newRequest`; on a hit return the cached response, additionally issuing a
background `newRequest` (stale-while-revalidate) unless `permanent`. -/
def getRequest (net : String → Nat) (cache : List (String × Nat))
    (url : String) (permanent : Bool) (method : Option String) :
    Nat × List (String × Nat) :=
  match List.lookup (requestKey url) cache with
  | none => newRequest net cache url method
  | some cached =>
    if !permanent then (cached, (newRequest net cache url method).2)
    else (cached, cache)

/-! ## `src/fetch-and-cache.ts`: the extension prober

`fetchPkg` (lines 71-87) is abstracted to an oracle
`fetch : String -> Except String (String × List Nat)` returning either the
pair of the final response URL and the body bytes, or the thrown error
message.  The process-wide `FAILED_EXT_URLS` set is an explicit list of
URLs threaded through the loop; an error result carries the message and the
updated set, since the set is mutated before the loop rethrows. -/

/-- `fileEndings` from `src/fetch-and-cache.ts` (line 91). -/
def fileEndings : List String := ["", "/index"]

/-- `exts` from `src/fetch-and-cache.ts` (line 92). -/
def exts : List String := ["", ".js", ".mjs", "/index.js", ".ts", ".tsx", ".cjs", ".d.ts"]

/-- Models `Array.from(new Set xs)`: removes duplicates keeping the first
occurrence of each element (JS `Set` iterates in insertion order). -/
def jsSetDedupAux (seen : List String) : List String → List String
  | [] => []
  | x :: xs =>
    if seen.contains x then jsSetDedupAux seen xs
    else x :: jsSetDedupAux (x :: seen) xs

/-- `allEndingVariants` from `src/fetch-and-cache.ts` (lines 96-98): the
deduplicated flattening of `exts` over `fileEndings`. -/
def allEndingVariants : List String :=
  jsSetDedupAux [] ((fileEndings.map (fun ending => exts.map (fun ext => ending ++ ext))).flatten)

/-- `endingVariantsLength` from `src/fetch-and-cache.ts` (line 100). -/
def endingVariantsLength : Nat := allEndingVariants.length

/-- The loop of `determineExtension` (`src/fetch-and-cache.ts` lines
116-142), one constructor case per iteration over the remaining ending
variants.  Arguments mirror the loop state: current index `i`, the error
saved from the first variant when its index was 0 (`err`), and the
`FAILED_EXT_URLS` set.  Falling off the list without a `break` or `throw`
returns the initial `url = path`, `ext = ""` and no content, exactly as the
source does. -/
def detExtAux (fetch : String → Except String (String × List Nat)) (path : String) :
    List String → Nat → Option String → List String →
    Except (String × List String) (String × String × Option (List Nat) × List String)
  | [], _, _, failed => .ok (path, "", none, failed)
  | v :: rest, i, err, failed =>
    let testingUrl := path ++ v
    if testingUrl ∈ failed then
      detExtAux fetch path rest (i + 1) err failed
    else
      match fetch testingUrl with
      | .ok (url, content) => .ok (url, extname url, some content, failed)
      | .error e =>
        let failed := testingUrl :: failed
        let err := if i = 0 then some e else err
        if i ≥ endingVariantsLength - 1 then .error (err.getD e, failed)
        else detExtAux fetch path rest (i + 1) err failed

/-- `determineExtension` from `src/fetch-and-cache.ts` (lines 107-145):
probes `path` with every ending variant in order through the fetch oracle,
skipping URLs in the failed set.  `.ok` carries `(url, ext, content,
FAILED_EXT_URLS)` and `.error` the thrown message plus the updated set. -/
def determineExtension (fetch : String → Except String (String × List Nat))
    (failed : List String) (path : String) :
    Except (String × List String) (String × String × Option (List Nat) × List String) :=
  detExtAux fetch path allEndingVariants 0 none failed

/-! ## `src/unnamed/part_000`: the cdn plugin resolve phase

The plugin's process-wide state (`RESOLVED_URLs`, `FAILED_PKGJSON_URLs`,
`FileSystem`) becomes an explicit record.  A fetched `package.json` is a
`Pkg` record holding the fields the plugin reads plus `raw`, the serialized
JSON text that `FileSystem.set(pkgPath, JSON.stringify(pkg))` stores.  The
external `resolve.exports` library calls (`resolve`, `legacy`) are oracle
parameters; `none` models a falsy chain result (`undefined` or `false`) and
a library exception is modelled by the falsy result, which leaves
`resolvedPath` exactly as the surrounding `try { } catch { }` does. -/

/-- The plugin's process-wide mutable state. -/
structure ResolveState where
  resolvedURLs : List (String × String)
  failedPkgJsonURLs : List String
  fileSystem : List (String × String)
deriving Repr, DecidableEq

/-- A fetched package manifest: the fields the plugin reads, plus the
serialized JSON text written into the virtual file system. -/
structure Pkg where
  name : Option String := none
  version : Option String := none
  raw : String := ""
deriving Repr, DecidableEq

/-- The result of the `resolve.exports` modern chain
`resolve(pkg, p, browser/module) || resolve(pkg, p, unsafe deno/worker/production) || resolve(pkg, p, require)`:
a single path or an array of paths. -/
inductive ModernResult where
  | one (s : String)
  | many (l : List String)
deriving Repr, DecidableEq

/-- The result of a `resolve.exports` `legacy` call: a path string, an
array of optional paths, or a field map from input path to output path
(`none` models a `false` value in the array or map). -/
inductive LegacyResult where
  | str (s : String)
  | arr (l : List (Option String))
  | map (m : List (String × Option String))
deriving Repr, DecidableEq

/-- JS truthiness of a `LegacyResult`: arrays and objects are truthy,
a string is truthy when nonempty. -/
def legacyTruthy : LegacyResult → Bool
  | .str s => s ≠ ""
  | .arr _ => true
  | .map _ => true

/-- The check of `src/unnamed/part_000` lines 191-197: `typeof legacyResolve
=== "object"` (true for arrays and maps) with every `Object.values` entry
falsy. -/
def legacyAllValuesFalsy : LegacyResult → Bool
  | .str _ => false
  | .arr l => l.all (fun v => !jsTruthyStr v)
  | .map m => m.all (fun kv => !jsTruthyStr kv.2)

/-- The key filter of `src/unnamed/part_000` lines 204-206: the key must
not match `/\.cjs$/` nor `/src\//` and its value in the map must be
truthy. -/
def qualifiesKey (m : List (String × Option String)) (k : String) : Bool :=
  !endsWithStr k ".cjs" && !hasSubstr k "src/" && jsTruthyStr ((List.lookup k m).join)

/-- The qualification condition of the legacy map filter expressed on a
key-value pair directly (for maps without duplicate keys, `qualifiesKey`
applied to a key of the map agrees with this predicate on its pair): the
key does not end in `.cjs`, does not contain `src/`, and its value is
truthy. -/
def legacyKeyPred (kv : String × Option String) : Bool :=
  !endsWithStr kv.1 ".cjs" && !hasSubstr kv.1 "src/" && jsTruthyStr kv.2

/-- The map branch of the legacy result handling (`src/unnamed/part_000`
lines 201-208): take `Object.keys`, filter to the qualifying keys, fall
back to all keys when none qualifies, and read the map at the first key of
that list.  The outer `none` models the `undefined` read off an empty key
list; `some none` models a falsy map value. -/
def selectLegacyEntry (m : List (String × Option String)) : Option (Option String) :=
  let allKeys := m.map Prod.fst
  let nonCJSKeys := allKeys.filter (qualifiesKey m)
  let keysToUse := if nonCJSKeys.length > 0 then nonCJSKeys else allKeys
  match keysToUse with
  | [] => none
  | k :: _ => some ((List.lookup k m).join)

/-- The key (`keysToUse[0]`) the legacy map branch selects. -/
def chosenLegacyKey (m : List (String × Option String)) : Option String :=
  let allKeys := m.map Prod.fst
  let nonCJSKeys := allKeys.filter (qualifiesKey m)
  (if nonCJSKeys.length > 0 then nonCJSKeys else allKeys).head?

/-- The `package.json` candidate list of `src/unnamed/part_000` lines
109-115: the subpath-local candidate (marked `isDir := true`) when the
subpath has no extension, then always the package-root candidate. -/
def pkgVariants (parsedName parsedVersion subpath : String) (isDir : Bool) :
    List (String × Bool) :=
  (if isDir then [(parsedName ++ "@" ++ parsedVersion ++ subpath ++ "/package.json", true)]
   else [])
  ++ [(parsedName ++ "@" ++ parsedVersion ++ "/package.json", false)]

/-- The manifest-candidate loop of `src/unnamed/part_000` lines 117-155.
The fetch oracle models `getRequest(url, true)` followed by the `res.ok`
check and `res.json()`: `.ok (resUrl, pkg)` is a parsed manifest together
with the final response URL, `.error e` any thrown failure.  A candidate
already in `FAILED_PKGJSON_URLs` is skipped only while it is not the last
one; a failing fetch records the URL and rethrows on the last index, and
the error carries the mutated state. -/
def pkgLoopAux (fetchJson : String → Except String (String × Pkg)) (origin : String)
    (len : Nat) :
    List (String × Bool) → Nat → Pkg → Bool → ResolveState →
    Except (String × ResolveState) (Pkg × Bool × ResolveState)
  | [], _, pkg, isDirPkgJSON, st => .ok (pkg, isDirPkgJSON, st)
  | (vPath, vIsDir) :: rest, i, pkg, isDirPkgJSON, st =>
    let href := (getCDNUrl vPath origin).urlHref
    if href ∈ st.failedPkgJsonURLs ∧ i < len - 1 then
      pkgLoopAux fetchJson origin len rest (i + 1) pkg isDirPkgJSON st
    else
      match fetchJson href with
      | .ok (resUrl, newPkg) =>
        let pkgPath := "/node_modules" ++ urlPathname resUrl
        let st :=
          if (List.lookup href st.resolvedURLs).isSome then st
          else { st with
                 fileSystem := (pkgPath, newPkg.raw) :: st.fileSystem
                 resolvedURLs := (href, pkgPath) :: st.resolvedURLs }
        .ok (newPkg, vIsDir, st)
      | .error e =>
        let st := { st with failedPkgJsonURLs := href :: st.failedPkgJsonURLs }
        if i ≥ len - 1 then .error (e, st)
        else pkgLoopAux fetchJson origin len rest (i + 1) pkg isDirPkgJSON st

/-- Output of the npm-CDN resolution block. -/
structure NpmResolveOut where
  st : ResolveState
  finalSubpath : String
  pkg : Pkg
  warned : Bool
deriving Repr, DecidableEq

/-- The npm-CDN `try { } catch { }` block of `src/unnamed/part_000` lines
103-228: fetch the manifest candidates, then resolve the entry point via
the modern oracle, else (when the subpath-local manifest was used) the
legacy oracles with the array / map / string handling of lines 188-212,
else fall back to the relative subpath; finally strip a leading `./` from a
truthy string result and prepend the directory segment for subpath-local
manifests.  The `catch` absorbs a loop throw: the function then returns the
mutated state, the untouched `finalSubpath = subpath`, the untouched
ancestor `pkg`, and `warned := true` for the two `console` warning calls of
lines 225-226. -/
def npmResolveBlock (fetchJson : String → Except String (String × Pkg))
    (modernOracle : Pkg → String → Option ModernResult)
    (legacyOracleA legacyOracleB : Pkg → Option LegacyResult)
    (st : ResolveState) (pkg₀ : Pkg)
    (parsedName parsedVersion subpath origin : String) : NpmResolveOut :=
  let ext := extname subpath
  let isDir := ext.length == 0
  let dirSeg := if isDir then subpath else ""
  let variants := pkgVariants parsedName parsedVersion subpath isDir
  match pkgLoopAux fetchJson origin variants.length variants 0 pkg₀ false st with
  | .error (_, st) =>
    { st := st, finalSubpath := subpath, pkg := pkg₀, warned := true }
  | .ok (pkg, isDirPkgJSON, st) =>
    let relativePath :=
      if startsWithStr subpath "/" then "./" ++ String.mk (subpath.data.drop 1) else subpath
    let resolvedPath : Option String :=
      match modernOracle pkg relativePath with
      | some (.one s) => some s
      | some (.many l) => l.head?
      | none =>
        if isDirPkgJSON then
          match legacyOracleA pkg with
          | some lr =>
            if legacyTruthy lr then
              let lr2 : Option LegacyResult :=
                if legacyAllValuesFalsy lr then legacyOracleB pkg else some lr
              match lr2 with
              | none => none
              | some (.arr l) => l.head?.join
              | some (.map m) => (selectLegacyEntry m).join
              | some (.str s) => some s
            else some subpath
          | none => some subpath
        else some relativePath
    let finalSubpath :=
      match resolvedPath with
      | some s =>
        if s ≠ "" then
          (if startsWithStr s "./" then "/" ++ String.mk (s.data.drop 2) else s)
        else subpath
      | none => subpath
    let finalSubpath :=
      if dirSeg ≠ "" && isDirPkgJSON then dirSeg ++ finalSubpath else finalSubpath
    { st := st, finalSubpath := finalSubpath, pkg := pkg, warned := false }

/-! ## Final CDN URL construction, content-store writes, and the
resolved-URL short-circuits (the plugin variants) -/

/-- The final CDN name construction of `src/unnamed/part_000` lines
230-233: `version = NPM_CDN ? "@" + (pkg.version || parsed.version) : ""`
followed by `` `${parsed.name}${version}${finalSubpath}` ``.  The fetched
manifest's `name` field is not read here; only its `version` is. -/
def part000FinalName (npmCDN : Bool) (pkgVersion : Option String)
    (parsedName parsedVersion finalSubpath : String) : String :=
  let version := if npmCDN then "@" ++ jsOrStr pkgVersion parsedVersion else ""
  parsedName ++ version ++ finalSubpath

/-- The final CDN name construction of `src/esbuild.ts` lines 150-152,
218-219 and 288: `version` starts as `"@" + parsed.version`, is replaced by
`"@" + pkg.version` when the manifest version is truthy, and `name` is
`pkg.name ?? parsed.name` (nullish coalescing, so even an empty manifest
name is used); the URL path is `` `${name}${version}${subpath}` ``. -/
def esbuildFinalName (pkgName pkgVersion : Option String)
    (parsedName parsedVersion subpath : String) : String :=
  let version :=
    if jsTruthyStr pkgVersion then "@" ++ pkgVersion.getD "" else "@" ++ parsedVersion
  let name := pkgName.getD parsedName
  name ++ version ++ subpath

/-- Modelled from the spec: "if the fetched manifest declares its own
`name`/`version`, those are authoritative over the parsed specifier's" —
the final CDN name the specification mandates, using the manifest name and
version whenever declared. -/
def specFinalName (pkgName pkgVersion : Option String)
    (parsedName parsedVersion subpath : String) : String :=
  pkgName.getD parsedName ++ "@" ++ pkgVersion.getD parsedVersion ++ subpath

/-- Models `TextDecoder.prototype.decode` applied to an optional buffer:
decoding `undefined` yields the empty string. -/
def jsTextDecode (dec : List Nat → String) : Option (List Nat) → String
  | none => ""
  | some bytes => dec bytes

/-- The guarded content-store write of `src/unnamed/part_000` lines
249-262: only `if (content)` does the plugin write the decoded content to
`FileSystem` and record `argPath -> filePath` in `RESOLVED_URLs` (and only
when `argPath` was not already recorded); without content it falls through
and resolves to nothing.  Returns the new file system, the new index, and
the returned path. -/
def part000StoreContent (dec : List Nat → String)
    (fs resolved : List (String × String)) (argPath filePath : String)
    (content : Option (List Nat)) :
    List (String × String) × List (String × String) × Option String :=
  match content with
  | some bytes =>
    if (List.lookup argPath resolved).isSome then (fs, resolved, some filePath)
    else ((filePath, dec bytes) :: fs, (argPath, filePath) :: resolved, some filePath)
  | none => (fs, resolved, none)

/-- The unguarded content-store write of the `src/README.md` plugin variant
(lines 529-536): `FileSystem.set(filePath, decoder.decode(content))` and
`RESOLVED_URLs.set(argPath, filePath)` run unconditionally, also when
`determineExtension` produced no content. -/
def readmeStoreContent (dec : List Nat → String)
    (fs resolved : List (String × String)) (argPath filePath : String)
    (content : Option (List Nat)) :
    List (String × String) × List (String × String) × Option String :=
  ((filePath, jsTextDecode dec content) :: fs, (argPath, filePath) :: resolved, some filePath)

/-- The `RESOLVED_URLs` short-circuit of the `src/README.md` plugin variant
(lines 364-371): the lookup key is `path` (`argPath` for bare imports,
`join(resolveDir, argPath)` otherwise, passed here as `joinedPath`) but the
returned value is read at `argPath`.  `some r` means the cached branch
returned with path `r` (`none` standing for `undefined`); `none` means the
branch was not taken. -/
def readmeShortCircuit (resolved : List (String × String))
    (argPath joinedPath : String) (bare : Bool) : Option (Option String) :=
  let path := if bare then argPath else joinedPath
  if (List.lookup path resolved).isSome then some (List.lookup argPath resolved)
  else none

/-- The bare-import `RESOLVED_URLs` short-circuit of `src/unnamed/part_000`
lines 71-72: checked and read at the same key `argPath`. -/
def part000BareShortCircuit (resolved : List (String × String))
    (argPath : String) : Option (Option String) :=
  if (List.lookup argPath resolved).isSome then some (List.lookup argPath resolved)
  else none

/-- The relative-import `RESOLVED_URLs` short-circuit of
`src/unnamed/part_000` lines 264-265: checked and read at the same joined
key. -/
def part000RelShortCircuit (resolved : List (String × String))
    (joinedPath : String) : Option (Option String) :=
  if (List.lookup joinedPath resolved).isSome then some (List.lookup joinedPath resolved)
  else none

/-- Modelled from the spec: the variant order the specification asserts for
the extension prober — the plain flattening of the extension list over the
path-suffix list, with no deduplication ("first `baseURL`, then
`baseURL.js`, ..., then `baseURL/index`, `baseURL/index.js`, etc."). -/
def specVariantOrder : List String :=
  (fileEndings.map (fun ending => exts.map (fun ext => ending ++ ext))).flatten

/-! ## Helper lemmas -/

/-- Appending `"/"` produces a string that ends in a slash. -/
theorem endsSlash_append_slash (s : String) : endsSlash (s ++ "/") = true := by
  unfold endsSlash
  rw [String.data_append]
  simp [List.getLast?_concat]

/-- The trailing-slash normalization at the end of `getCDNOrigin` always
yields a slash-terminated string. -/
theorem endsSlash_norm (s : String) :
    endsSlash (if endsSlash s then s else s ++ "/") = true := by
  cases h : endsSlash s
  · simp only [h, Bool.false_eq_true, if_false, endsSlash_append_slash]
  · simp only [h, if_true]

/-- Skipping step of the extension-prober loop: a variant URL already in
the failed set is passed over. -/
theorem detExtAux_skip (fetch : String → Except String (String × List Nat))
    (path v : String) (rest : List String) (i : Nat) (err : Option String)
    (failed : List String) (h : (path ++ v) ∈ failed) :
    detExtAux fetch path (v :: rest) i err failed
      = detExtAux fetch path rest (i + 1) err failed := by
  simp only [detExtAux, if_pos h]

/-- Breaking step of the extension-prober loop: a successful fetch stops
the loop with the response URL, its extension, and the content. -/
theorem detExtAux_break (fetch : String → Except String (String × List Nat))
    (path v : String) (rest : List String) (i : Nat) (err : Option String)
    (failed : List String) (u : String) (c : List Nat)
    (h1 : (path ++ v) ∉ failed)
    (h2 : fetch (path ++ v) = .ok (u, c)) :
    detExtAux fetch path (v :: rest) i err failed = .ok (u, extname u, some c, failed) := by
  simp only [detExtAux, if_neg h1, h2]

/-- Failing step of the extension-prober loop before the last index: the
URL is recorded as failed, the error is saved only at index zero, and the
loop continues. -/
theorem detExtAux_fail_cont (fetch : String → Except String (String × List Nat))
    (path v : String) (rest : List String) (i : Nat) (err : Option String)
    (failed : List String) (e : String)
    (h1 : (path ++ v) ∉ failed)
    (h2 : fetch (path ++ v) = .error e)
    (h3 : i < endingVariantsLength - 1) :
    detExtAux fetch path (v :: rest) i err failed
      = detExtAux fetch path rest (i + 1) (if i = 0 then some e else err)
          ((path ++ v) :: failed) := by
  simp only [detExtAux, if_neg h1, h2, if_neg (Nat.not_le_of_lt h3)]

/-! ## Claim theorems -/

/-- C1: the claim states that a GET cache miss (including the default case
where no method is supplied) stores the cloned response so a second
`getRequest` hits.  The code evaluated at the failing input shows
otherwise: with no explicit method the early return in `newRequest` skips
the store and the cache stays empty, so the second call misses again; only
an explicitly supplied `"GET"` method stores, and non-GET methods never
store. -/
theorem getRequest_default_get_never_cached :
    (getRequest (fun _ => 7) [] "https://unpkg.com/react@18.2.0/package.json" true none).2
      = []
  ∧ (getRequest (fun _ => 7)
      ((getRequest (fun _ => 7) [] "https://unpkg.com/react@18.2.0/package.json" true none).2)
      "https://unpkg.com/react@18.2.0/package.json" true none).2 = []
  ∧ (getRequest (fun _ => 7) [] "https://unpkg.com/react@18.2.0/package.json" true
      (some "GET")).2
      = [("https://unpkg.com/react@18.2.0/package.json", 7)]
  ∧ (getRequest (fun _ => 7) [] "https://unpkg.com/react@18.2.0/package.json" true
      (some "POST")).2 = [] := by
  refine ⟨rfl, rfl, ?_, rfl⟩
  decide

/-- C2: the claim states the prober never returns normally when no variant
succeeded and that the error of the first attempted variant is thrown.
Evaluating the code: when every variant URL is already in the failed set
(a second probe of a fully failed base URL) the loop only skips and the
function returns normally with `ext = ""` and no content; and when just the
first variant is skipped, the error finally thrown is the one of the last
attempted variant (`/index.d.ts`), not of the first attempted (`.js`). -/
theorem determineExtension_skip_return_bug :
    determineExtension (fun _ => .error "network failure")
      (allEndingVariants.map (fun v => "https://unpkg.com/pkg@1.0.0/lib/x" ++ v))
      "https://unpkg.com/pkg@1.0.0/lib/x"
      = .ok ("https://unpkg.com/pkg@1.0.0/lib/x", "", none,
          allEndingVariants.map (fun v => "https://unpkg.com/pkg@1.0.0/lib/x" ++ v))
  ∧ (∃ failedAfter,
      determineExtension (fun u => .error ("E " ++ u))
        ["https://unpkg.com/pkg@1.0.0/lib/x"] "https://unpkg.com/pkg@1.0.0/lib/x"
      = .error ("E https://unpkg.com/pkg@1.0.0/lib/x/index.d.ts", failedAfter))
  ∧ ("E https://unpkg.com/pkg@1.0.0/lib/x/index.d.ts" : String)
      ≠ "E https://unpkg.com/pkg@1.0.0/lib/x.js" := by
  refine ⟨rfl, ⟨_, rfl⟩, ?_⟩
  decide

/-- C3 counterexample: the claim asserts the prober tries the variants in
exactly the flattened (undeduplicated) order, with `baseURL/index.js`
attempted again right after `baseURL/index`.  The code deduplicates via
`new Set`, so its variant list is one element shorter and the variant after
`/index` is `/index.mjs`, not `/index.js`. -/
theorem endingVariants_order_counterexample :
    allEndingVariants ≠ specVariantOrder
  ∧ specVariantOrder.get? 9 = some "/index.js"
  ∧ allEndingVariants.get? 9 = some "/index.mjs"
  ∧ allEndingVariants.length = 15
  ∧ specVariantOrder.length = 16 := by
  decide

/-- C3 amended: the prober tries the suffix variants in first-occurrence
deduplicated flattened order (so `/index.js` is tried fourth and never
again after `/index`), stops at the first successful fetch — any oracle
agreeing on the first three variants gives the same result, so nothing
after the success is attempted — and reports the extension of the
successful response URL: probing `pkg@1.0.0/lib/x` that only succeeds at
`pkg@1.0.0/lib/x.mjs` reports `.mjs` and records exactly the two earlier
variants as failed. -/
theorem endingVariants_probe_amended :
    allEndingVariants
      = ["", ".js", ".mjs", "/index.js", ".ts", ".tsx", ".cjs", ".d.ts", "/index",
         "/index.mjs", "/index/index.js", "/index.ts", "/index.tsx", "/index.cjs",
         "/index.d.ts"]
  ∧ ∀ (fetch : String → Except String (String × List Nat)) (e₀ e₁ : String) (c : List Nat),
      fetch "https://unpkg.com/pkg@1.0.0/lib/x" = .error e₀ →
      fetch "https://unpkg.com/pkg@1.0.0/lib/x.js" = .error e₁ →
      fetch "https://unpkg.com/pkg@1.0.0/lib/x.mjs"
        = .ok ("https://unpkg.com/pkg@1.0.0/lib/x.mjs", c) →
      determineExtension fetch [] "https://unpkg.com/pkg@1.0.0/lib/x"
        = .ok ("https://unpkg.com/pkg@1.0.0/lib/x.mjs", ".mjs", some c,
               ["https://unpkg.com/pkg@1.0.0/lib/x.js", "https://unpkg.com/pkg@1.0.0/lib/x"]) := by
  refine ⟨by decide, ?_⟩
  intro fetch e₀ e₁ c h₀ h₁ h₂
  show detExtAux fetch "https://unpkg.com/pkg@1.0.0/lib/x" allEndingVariants 0 none [] = _
  rw [show allEndingVariants
      = ["", ".js", ".mjs", "/index.js", ".ts", ".tsx", ".cjs", ".d.ts", "/index",
         "/index.mjs", "/index/index.js", "/index.ts", "/index.tsx", "/index.cjs",
         "/index.d.ts"] from by decide]
  rw [detExtAux_fail_cont fetch "https://unpkg.com/pkg@1.0.0/lib/x" "" _ 0 none [] e₀
      (by decide) (by exact h₀) (by decide)]
  rw [detExtAux_fail_cont fetch "https://unpkg.com/pkg@1.0.0/lib/x" ".js" _ 1 _ _ e₁
      (by decide) (by exact h₁) (by decide)]
  rw [detExtAux_break fetch "https://unpkg.com/pkg@1.0.0/lib/x" ".mjs" _ 2 _ _
      "https://unpkg.com/pkg@1.0.0/lib/x.mjs" c (by decide) (by exact h₂)]
  rfl

/-- C3 witness: the amended probe theorem applied to a concrete oracle that
succeeds exactly at the `.mjs` variant. -/
theorem endingVariants_probe_amended_witness :
    determineExtension
      (fun u => if u = "https://unpkg.com/pkg@1.0.0/lib/x.mjs"
                then .ok ("https://unpkg.com/pkg@1.0.0/lib/x.mjs", [42]) else .error "nope")
      [] "https://unpkg.com/pkg@1.0.0/lib/x"
      = .ok ("https://unpkg.com/pkg@1.0.0/lib/x.mjs", ".mjs", some [42],
             ["https://unpkg.com/pkg@1.0.0/lib/x.js", "https://unpkg.com/pkg@1.0.0/lib/x"]) :=
  endingVariants_probe_amended.2
    (fun u => if u = "https://unpkg.com/pkg@1.0.0/lib/x.mjs"
              then .ok ("https://unpkg.com/pkg@1.0.0/lib/x.mjs", [42]) else .error "nope")
    "nope" "nope" [42] rfl rfl rfl

/-- C4: the claim states a virtual-content-store write happens only when
fetched content is actually present.  The `part_000` plugin guards the
write with `if (content)` (second conjunct: no content, no write), but the
`README.md` plugin variant writes unconditionally, storing the empty string
`decoder.decode(undefined)` under the resolved path when the prober
returned without content — an absent-content store write. -/
theorem contentStore_unguarded_write_bug :
    readmeStoreContent (fun _ => "DECODED") [] [] "react"
      "/node_modules/react@18.2.0/index.js" none
      = ([("/node_modules/react@18.2.0/index.js", "")],
         [("react", "/node_modules/react@18.2.0/index.js")],
         some "/node_modules/react@18.2.0/index.js")
  ∧ ∀ (dec : List Nat → String) (fs resolved : List (String × String))
      (argPath filePath : String),
      part000StoreContent dec fs resolved argPath filePath none = (fs, resolved, none) := by
  exact ⟨rfl, fun dec fs resolved a fp => rfl⟩

/-- C5: the claim states a second resolve of the same specifier is answered
from `RESOLVED_URLs` with the identical virtual path.  The `part_000`
short-circuits do exactly that (second and third conjuncts), but the
`README.md` variant checks `has(path)` while reading `get(argPath)`: for a
relative specifier, whose index key is the joined path, the cached branch
is taken yet returns `undefined` instead of the stored virtual path. -/
theorem resolvedURLs_readme_lookup_bug :
    readmeShortCircuit [("/node_modules/pkg/util", "/node_modules/pkg/util.js")]
      "./util" "/node_modules/pkg/util" false = some none
  ∧ part000RelShortCircuit [("/node_modules/pkg/util", "/node_modules/pkg/util.js")]
      "/node_modules/pkg/util" = some (some "/node_modules/pkg/util.js")
  ∧ part000BareShortCircuit [("react", "/node_modules/react@18.2.0/index.js")]
      "react" = some (some "/node_modules/react@18.2.0/index.js") := by
  refine ⟨rfl, rfl, rfl⟩

/-- C6 counterexample: the claim states both the manifest name and version
replace the parsed ones in the final CDN URL.  At a resolve where the
manifest declares name `preact` and version `2.0.0` for parsed specifier
`react@latest`, `part_000` builds `react@2.0.0/index.js` — the manifest
version is used but the manifest name is not, contradicting the
spec-mandated `preact@2.0.0/index.js`. -/
theorem finalName_manifest_name_counterexample :
    part000FinalName true (some "2.0.0") "react" "latest" "/index.js" = "react@2.0.0/index.js"
  ∧ specFinalName (some "preact") (some "2.0.0") "react" "latest" "/index.js"
      = "preact@2.0.0/index.js"
  ∧ part000FinalName true (some "2.0.0") "react" "latest" "/index.js"
      ≠ specFinalName (some "preact") (some "2.0.0") "react" "latest" "/index.js" := by
  decide

/-- C6 amended: on an npm-style CDN a truthy manifest version replaces the
parsed version in the final CDN URL, and the parsed version is kept when
the manifest declares none, but the name is always the parsed specifier
name in `part_000`; the `esbuild.ts` variant additionally substitutes the
manifest name. -/
theorem finalName_version_reconciliation_amended :
    (∀ (v parsedName parsedVersion sub : String), v ≠ "" →
        part000FinalName true (some v) parsedName parsedVersion sub
          = parsedName ++ "@" ++ v ++ sub)
  ∧ (∀ (parsedName parsedVersion sub : String),
        part000FinalName true none parsedName parsedVersion sub
          = parsedName ++ "@" ++ parsedVersion ++ sub)
  ∧ (∀ (n v parsedName parsedVersion sub : String), v ≠ "" →
        esbuildFinalName (some n) (some v) parsedName parsedVersion sub
          = n ++ "@" ++ v ++ sub) := by
  refine ⟨?_, ?_, ?_⟩
  · intro v pn pv sub hv
    simp only [part000FinalName, jsOrStr, if_true, if_neg hv]
    rw [← String.append_assoc]
  · intro pn pv sub
    simp only [part000FinalName, jsOrStr, if_true]
    rw [← String.append_assoc]
  · intro n v pn pv sub hv
    simp only [esbuildFinalName, jsTruthyStr, Option.getD]
    rw [if_pos (by simpa using hv), ← String.append_assoc]

/-- C6 witness: the amended reconciliation theorem at the concrete manifest
version `18.2.0` for parsed `react@latest`. -/
theorem finalName_version_reconciliation_amended_witness :
    part000FinalName true (some "18.2.0") "react" "latest" "/index.js"
      = "react" ++ "@" ++ "18.2.0" ++ "/index.js" :=
  finalName_version_reconciliation_amended.1 "18.2.0" "react" "latest" "/index.js"
    (by decide)

/-- C9: `getCDNOrigin "esm:react"` yields `https://cdn.esm.sh/` for every
supplied default CDN (the scheme takes precedence), and the origin returned
by `getCDNOrigin` always ends with a slash. -/
theorem cdnOrigin_scheme_precedence :
    (∀ cdn, getCDNOrigin "esm:react" cdn = "https://cdn.esm.sh/")
  ∧ (∀ importStr cdn, endsSlash (getCDNOrigin importStr cdn) = true) := by
  refine ⟨fun cdn => rfl, fun importStr cdn => ?_⟩
  exact endsSlash_norm _

/-- C10: the loader hint is a pure function of the extension of the virtual
path (first conjunct), and the fixed table behaves as claimed: `.js`/`.jsx`
normalize to `ts`/`tsx`, `.scss` to the stylesheet loader, images and fonts
to data-url embedding, `.svg`/`.html`/`.txt` to raw text, `.wasm` to the
binary-file loader, and an extensionless path to the source-code
default. -/
theorem inferLoader_extension_table :
    (∀ p q, extname p = extname q → inferLoader p = inferLoader q)
  ∧ inferLoader "a.js" = "ts" ∧ inferLoader "a.jsx" = "tsx"
  ∧ inferLoader "a.scss" = "css"
  ∧ inferLoader "a.png" = "dataurl" ∧ inferLoader "a.jpeg" = "dataurl"
  ∧ inferLoader "a.ttf" = "dataurl"
  ∧ inferLoader "a.svg" = "text" ∧ inferLoader "a.html" = "text"
  ∧ inferLoader "a.txt" = "text"
  ∧ inferLoader "a.wasm" = "file"
  ∧ inferLoader "pkg/noext" = "ts" := by
  refine ⟨?_, by decide⟩
  intro p q h
  unfold inferLoader
  rw [h]

/-- C10 witness: two paths sharing the `.js` extension receive the same
loader via the purity part of the table theorem. -/
theorem inferLoader_extension_table_witness :
    inferLoader "a.js" = inferLoader "b/a.js" :=
  inferLoader_extension_table.1 "a.js" "b/a.js" (by decide)

/-- The manifest-candidate list is never empty: the package-root candidate
is always present. -/
theorem pkgVariants_ne_nil (parsedName parsedVersion subpath : String) (isDir : Bool) :
    pkgVariants parsedName parsedVersion subpath isDir ≠ [] := by
  cases isDir <;> simp [pkgVariants]

/-- When every manifest fetch fails, the candidate loop of `part_000`
always reaches the throw on its last attempted candidate: the skip guard
`i < len - 1` never skips the last index, and every attempt fails. -/
theorem pkgLoopAux_all_fail (fetchJson : String → Except String (String × Pkg))
    (origin : String) (len : Nat) :
    ∀ (rem : List (String × Bool)) (i : Nat) (pkg : Pkg) (b : Bool) (st : ResolveState),
      rem ≠ [] → i + rem.length = len →
      (∀ u, ∃ e, fetchJson u = .error e) →
      ∃ e st', pkgLoopAux fetchJson origin len rem i pkg b st = .error (e, st') := by
  intro rem
  induction rem with
  | nil => intro i pkg b st hne; exact absurd rfl hne
  | cons hd tl ih =>
    intro i pkg b st _ hlen hfail
    obtain ⟨vPath, vIsDir⟩ := hd
    rw [List.length_cons] at hlen
    simp only [pkgLoopAux]
    by_cases hskip : (getCDNUrl vPath origin).urlHref ∈ st.failedPkgJsonURLs ∧ i < len - 1
    · rw [if_pos hskip]
      have htl : tl ≠ [] := by
        intro hnil
        rw [hnil] at hlen
        simp at hlen
        omega
      exact ih (i + 1) pkg b st htl (by omega) hfail
    · rw [if_neg hskip]
      obtain ⟨e, he⟩ := hfail (getCDNUrl vPath origin).urlHref
      simp only [he]
      by_cases hl : i ≥ len - 1
      · rw [if_pos hl]
        exact ⟨e, _, rfl⟩
      · rw [if_neg hl]
        have htl : tl ≠ [] := by
          intro hnil
          rw [hnil] at hlen
          simp at hlen
          omega
        exact ih (i + 1) pkg b _ htl (by omega) hfail

/-- C8: when every `package.json` candidate fetch fails, the npm resolution
block absorbs the failure in its `catch` — it returns normally (no throw to
the caller) with the warning logged (`warned = true`) — and resolution
degrades to the literal parsed subpath (`finalSubpath = subpath`) with the
ancestor manifest left untouched. -/
theorem manifestFetch_failure_absorbed
    (fetchJson : String → Except String (String × Pkg))
    (modernOracle : Pkg → String → Option ModernResult)
    (legacyOracleA legacyOracleB : Pkg → Option LegacyResult)
    (st : ResolveState) (pkg₀ : Pkg)
    (parsedName parsedVersion subpath origin : String)
    (hfail : ∀ u, ∃ e, fetchJson u = .error e) :
    ∃ st',
      npmResolveBlock fetchJson modernOracle legacyOracleA legacyOracleB st pkg₀
        parsedName parsedVersion subpath origin
      = { st := st', finalSubpath := subpath, pkg := pkg₀, warned := true } := by
  simp only [npmResolveBlock]
  obtain ⟨e, st', hloop⟩ :=
    pkgLoopAux_all_fail fetchJson origin
      (pkgVariants parsedName parsedVersion subpath ((extname subpath).length == 0)).length
      (pkgVariants parsedName parsedVersion subpath ((extname subpath).length == 0))
      0 pkg₀ false st
      (pkgVariants_ne_nil parsedName parsedVersion subpath ((extname subpath).length == 0))
      (by simp) hfail
  rw [hloop]
  exact ⟨st', rfl⟩

/-- C8 witness: the absorption theorem at a concrete always-failing fetch
oracle, empty state and the parsed specifier `react@latest/lib`. -/
theorem manifestFetch_failure_absorbed_witness :
    ∃ st',
      npmResolveBlock (fun _ => .error "404 Not Found") (fun _ _ => none)
        (fun _ => none) (fun _ => none)
        { resolvedURLs := [], failedPkgJsonURLs := [], fileSystem := [] } {}
        "react" "latest" "/lib" "https://unpkg.com/"
      = { st := st', finalSubpath := "/lib", pkg := {}, warned := true } :=
  manifestFetch_failure_absorbed (fun _ => .error "404 Not Found") (fun _ _ => none)
    (fun _ => none) (fun _ => none)
    { resolvedURLs := [], failedPkgJsonURLs := [], fileSystem := [] } {}
    "react" "latest" "/lib" "https://unpkg.com/"
    (fun _ => ⟨"404 Not Found", rfl⟩)

/-- For a map without duplicate keys, the source-side key filter evaluated
at the head key reads the head value. -/
theorem qualifiesKey_cons_self (k : String) (v : Option String)
    (rest : List (String × Option String)) :
    qualifiesKey ((k, v) :: rest) k = legacyKeyPred (k, v) := by
  simp [qualifiesKey, legacyKeyPred, List.lookup]

/-- The source-side key filter ignores a head entry with a different key. -/
theorem qualifiesKey_cons_ne (k x : String) (v : Option String)
    (rest : List (String × Option String)) (h : x ≠ k) :
    qualifiesKey ((k, v) :: rest) x = qualifiesKey rest x := by
  simp [qualifiesKey, List.lookup, beq_eq_false_iff_ne.mpr h]

/-- The head of a filtered list is the first element satisfying the
predicate. -/
theorem head?_filter_eq_find? {α : Type} (p : α → Bool) (l : List α) :
    (l.filter p).head? = l.find? p := by
  induction l with
  | nil => rfl
  | cons a t ih =>
    rw [List.filter_cons]
    by_cases h : p a
    · rw [if_pos h, List.find?_cons_of_pos _ h]
      rfl
    · rw [if_neg h, List.find?_cons_of_neg _ h]
      exact ih

/-- For a map without duplicate keys, filtering `Object.keys` through the
lookup-based key filter is the key image of filtering the entries through
the pairwise predicate. -/
theorem legacy_filter_keys (m : List (String × Option String))
    (hnd : (m.map Prod.fst).Nodup) :
    (m.map Prod.fst).filter (qualifiesKey m) = (m.filter legacyKeyPred).map Prod.fst := by
  induction m with
  | nil => rfl
  | cons kv rest ih =>
    obtain ⟨k, v⟩ := kv
    rw [List.map_cons] at hnd ⊢
    have hk : k ∉ rest.map Prod.fst := (List.nodup_cons.mp hnd).1
    have hrest : (rest.map Prod.fst).Nodup := (List.nodup_cons.mp hnd).2
    have hcongr : (rest.map Prod.fst).filter (qualifiesKey ((k, v) :: rest))
        = (rest.map Prod.fst).filter (qualifiesKey rest) := by
      apply List.filter_congr
      intro x hx
      exact qualifiesKey_cons_ne k x v rest (fun hxk => hk (hxk ▸ hx))
    rw [List.filter_cons, qualifiesKey_cons_self, List.filter_cons]
    by_cases hp : legacyKeyPred (k, v)
    · rw [if_pos hp, if_pos hp, List.map_cons, hcongr, ih hrest]
    · rw [if_neg hp, if_neg hp, hcongr, ih hrest]

/-- For a map without duplicate keys, looking the map up at the key of the
first qualifying entry returns that entry's value. -/
theorem lookup_of_find?_legacy (m : List (String × Option String))
    (hnd : (m.map Prod.fst).Nodup) (kv : String × Option String)
    (h : m.find? legacyKeyPred = some kv) :
    List.lookup kv.1 m = some kv.2 := by
  induction m with
  | nil => simp at h
  | cons hd rest ih =>
    obtain ⟨k, v⟩ := hd
    rw [List.map_cons] at hnd
    have hk : k ∉ rest.map Prod.fst := (List.nodup_cons.mp hnd).1
    have hrest : (rest.map Prod.fst).Nodup := (List.nodup_cons.mp hnd).2
    by_cases hp : legacyKeyPred (k, v)
    · rw [List.find?_cons_of_pos _ hp] at h
      obtain rfl : (k, v) = kv := by injection h
      simp [List.lookup]
    · rw [List.find?_cons_of_neg _ hp] at h
      have hmem : kv ∈ rest := List.mem_of_find?_eq_some h
      have hne : kv.1 ≠ k := by
        intro hkk
        exact hk (hkk ▸ List.mem_map_of_mem Prod.fst hmem)
      rw [List.lookup]
      simp only [beq_eq_false_iff_ne.mpr hne]
      exact ih hrest h

/-- C7: on any nonempty legacy map without duplicate keys, the selected
entry is the value of the first key whose value is truthy, which does not
end in `.cjs` and does not contain `src/`; when no key qualifies, the value
of the first key is used regardless.  In particular, on the map
`main.js -> false, main.cjs -> ./a.cjs, main.mjs -> ./a.mjs` the chosen key
is `main.mjs` and the selected entry is `./a.mjs`. -/
theorem legacyMap_first_qualifying :
    (∀ (m : List (String × Option String)), (m.map Prod.fst).Nodup → ∀ (hne : m ≠ []),
        selectLegacyEntry m
          = some (match m.find? legacyKeyPred with
              | some kv => kv.2
              | none => (m.head hne).2))
  ∧ chosenLegacyKey [("main.js", none), ("main.cjs", some "./a.cjs"), ("main.mjs", some "./a.mjs")]
      = some "main.mjs"
  ∧ selectLegacyEntry [("main.js", none), ("main.cjs", some "./a.cjs"), ("main.mjs", some "./a.mjs")]
      = some (some "./a.mjs") := by
  refine ⟨?_, by decide, by decide⟩
  intro m hnd hne
  simp only [selectLegacyEntry]
  rw [legacy_filter_keys m hnd]
  cases hf : m.find? legacyKeyPred with
  | some kv =>
    have h1 : (m.filter legacyKeyPred).head? = some kv := by
      rw [head?_filter_eq_find?, hf]
    cases hfl : m.filter legacyKeyPred with
    | nil => rw [hfl] at h1; simp at h1
    | cons kv' tl =>
      rw [hfl] at h1
      obtain rfl : kv' = kv := by injection h1
      simp only [List.map_cons, List.length_cons]
      rw [if_pos (by omega)]
      show some ((List.lookup kv'.1 m).join) = _
      rw [lookup_of_find?_legacy m hnd kv' hf]
      rfl
  | none =>
    have h1 : (m.filter legacyKeyPred).head? = none := by
      rw [head?_filter_eq_find?, hf]
    have hfl : m.filter legacyKeyPred = [] := by
      cases hfl' : m.filter legacyKeyPred with
      | nil => rfl
      | cons a t => rw [hfl'] at h1; simp at h1
    rw [hfl]
    simp only [List.map_nil, List.length_nil]
    rw [if_neg (by omega)]
    cases m with
    | nil => exact absurd rfl hne
    | cons hd tl =>
      obtain ⟨k, v⟩ := hd
      simp [List.lookup]

/-- C7 witness: the selection theorem applied to the concrete example map,
with the nonemptiness and no-duplicate-key hypotheses discharged. -/
theorem legacyMap_first_qualifying_witness :
    selectLegacyEntry [("main.js", none), ("main.cjs", some "./a.cjs"),
        ("main.mjs", some "./a.mjs")]
      = some (some "./a.mjs") :=
  (legacyMap_first_qualifying.1
    [("main.js", none), ("main.cjs", some "./a.cjs"), ("main.mjs", some "./a.mjs")]
    (by decide) (by decide)).trans (by decide)
